import Mathlib

/-!
# Verification of the PasteKitLab content-classification and transform engine

Shallow embedding of the engine of the `pastekitlab` browser extension:

* `EncodingUtils.encode` / `EncodingUtils.decode` — the compound-encoding
  codec built on CryptoJS word arrays (source: the cipher-utils module);
* the AES decrypt post-processing (padding selection, CTR trailing-zero
  trim, final text conversion);
* `analyzePrintableCharacters` (source: `src/pastekit/utils/textutils.js`);
* `decodeHex` of the encode tool;
* `isLikelyRSACipher` and `detectContentType` — the classifier of the
  popup, with the speculative decryption sweep abstracted over a decrypt
  oracle (`Config → String → Except Unit String`), standing for
  `CipherUtils.decrypt` which either returns a string or throws.

JavaScript strings are modelled as Lean `String`s (sequences of Unicode
scalar values); `.length` is modelled as the UTF-16 code-unit count
`jsLength`.  Machine arithmetic does not occur in the translated code
apart from byte values, which are `Nat`s kept below 256 by construction
(`% 256` where the source's bit operations truncate).
-/

namespace PasteKit

/-! ## JavaScript string primitives -/

/-- The JS `\s` / `String.prototype.trim` whitespace set (WhiteSpace and
LineTerminator code points). -/
def isJsWhitespace (c : Char) : Bool :=
  c = '\t' ∨ c = '\n' ∨ c.toNat = 0x0B ∨ c.toNat = 0x0C ∨ c = '\r' ∨ c = ' ' ∨
  c.toNat = 0xA0 ∨ c.toNat = 0x1680 ∨ (0x2000 ≤ c.toNat ∧ c.toNat ≤ 0x200A) ∨
  c.toNat = 0x2028 ∨ c.toNat = 0x2029 ∨ c.toNat = 0x202F ∨ c.toNat = 0x205F ∨
  c.toNat = 0x3000 ∨ c.toNat = 0xFEFF

/-- JS `String.prototype.trim`. -/
def jsTrimL (l : List Char) : List Char :=
  ((l.dropWhile isJsWhitespace).reverse.dropWhile isJsWhitespace).reverse

def jsTrim (s : String) : String := ⟨jsTrimL s.data⟩

/-- UTF-16 length of one scalar value (2 code units for supplementary planes). -/
def utf16Width (c : Char) : Nat := if c.toNat < 0x10000 then 1 else 2

/-- JS `String.prototype.length` (UTF-16 code units). -/
def jsLength (s : String) : Nat := (s.data.map utf16Width).sum

/-- JS `toUpperCase`, restricted to the ASCII mapping (the strings the
engine uppercases are algorithm/mode/padding names). -/
def jsCharUpper (c : Char) : Char :=
  if 97 ≤ c.toNat ∧ c.toNat ≤ 122 then Char.ofNat (c.toNat - 32) else c

def jsToUpper (s : String) : String := ⟨s.data.map jsCharUpper⟩

/-- JS `toLowerCase`, restricted to the ASCII mapping. -/
def jsCharLower (c : Char) : Char :=
  if 65 ≤ c.toNat ∧ c.toNat ≤ 90 then Char.ofNat (c.toNat + 32) else c

def jsToLower (s : String) : String := ⟨s.data.map jsCharLower⟩

/-- Substring test on character lists. -/
def listContainsSub (pat : List Char) : List Char → Bool
  | [] => pat.isEmpty
  | c :: rest => pat.isPrefixOf (c :: rest) || listContainsSub pat rest

/-- JS `String.prototype.includes`. -/
def jsIncludes (s pat : String) : Bool := listContainsSub pat.data s.data

/-- JS `String.prototype.startsWith`. -/
def jsStartsWith (s pat : String) : Bool := pat.data.isPrefixOf s.data

/-- JS `String.prototype.replace` with a plain (non-global) pattern:
replaces the first occurrence only. -/
def jsReplaceFirstL (l pat repl : List Char) : List Char :=
  match l with
  | [] => []
  | c :: rest =>
    if pat.isPrefixOf (c :: rest) then repl ++ (c :: rest).drop pat.length
    else c :: jsReplaceFirstL rest pat repl

def jsReplaceFirst (s pat repl : String) : String := ⟨jsReplaceFirstL s.data pat.data repl.data⟩

/-! ## UTF-8 (TextEncoder / CryptoJS `enc.Utf8`) -/

/-- UTF-8 encoding of one Unicode scalar value. -/
def utf8EncodeChar (c : Char) : List Nat :=
  let n := c.toNat
  if n < 0x80 then [n]
  else if n < 0x800 then [0xC0 + n / 64, 0x80 + n % 64]
  else if n < 0x10000 then [0xE0 + n / 4096, 0x80 + n / 64 % 64, 0x80 + n % 64]
  else [0xF0 + n / 262144, 0x80 + n / 4096 % 64, 0x80 + n / 64 % 64, 0x80 + n % 64]

/-- Model of `CryptoJS.enc.Utf8.parse` / `TextEncoder.encode`: string to bytes. -/
def utf8Encode (s : String) : List Nat := s.data.flatMap utf8EncodeChar

/-- Strict UTF-8 decoding of a byte list: rejects malformed, truncated,
overlong and surrogate/out-of-range sequences, as `CryptoJS.enc.Utf8.stringify`
(which throws a `URIError` through `decodeURIComponent`) does. -/
def utf8DecodeStrictL : List Nat → Option (List Char)
  | [] => some []
  | b :: rest =>
    if b < 0x80 then
      (utf8DecodeStrictL rest).map (fun cs => Char.ofNat b :: cs)
    else if b < 0xC2 then none
    else if b < 0xE0 then
      match rest with
      | b2 :: rest2 =>
        if 0x80 ≤ b2 ∧ b2 < 0xC0 then
          (utf8DecodeStrictL rest2).map (fun cs => Char.ofNat ((b - 0xC0) * 64 + (b2 - 0x80)) :: cs)
        else none
      | [] => none
    else if b < 0xF0 then
      match rest with
      | b2 :: b3 :: rest3 =>
        if 0x80 ≤ b2 ∧ b2 < 0xC0 ∧ 0x80 ≤ b3 ∧ b3 < 0xC0 then
          let n := (b - 0xE0) * 4096 + (b2 - 0x80) * 64 + (b3 - 0x80)
          if 0x800 ≤ n ∧ ¬ (0xD800 ≤ n ∧ n ≤ 0xDFFF) then
            (utf8DecodeStrictL rest3).map (fun cs => Char.ofNat n :: cs)
          else none
        else none
      | _ => none
    else if b < 0xF5 then
      match rest with
      | b2 :: b3 :: b4 :: rest4 =>
        if 0x80 ≤ b2 ∧ b2 < 0xC0 ∧ 0x80 ≤ b3 ∧ b3 < 0xC0 ∧ 0x80 ≤ b4 ∧ b4 < 0xC0 then
          let n := (b - 0xF0) * 262144 + (b2 - 0x80) * 4096 + (b3 - 0x80) * 64 + (b4 - 0x80)
          if 0x10000 ≤ n ∧ n ≤ 0x10FFFF then
            (utf8DecodeStrictL rest4).map (fun cs => Char.ofNat n :: cs)
          else none
        else none
      | _ => none
    else none

/-- Model of `CryptoJS.enc.Utf8.stringify`: `some` text, or `none` for the thrown
"Malformed UTF-8 data" error. -/
def utf8DecodeStrict (bytes : List Nat) : Option String :=
  (utf8DecodeStrictL bytes).map (fun cs => ⟨cs⟩)

/-- Model of `TextDecoder('utf-8')` in its default non-fatal mode
(the WHATWG UTF-8 decoder): malformed input produces one U+FFFD
replacement character per maximal invalid subpart — on an invalid or
truncating byte the decoder emits U+FFFD for the bytes consumed so far
and resumes at that byte; lead bytes constrain the second byte
(0xE0 → A0-BF, 0xED → 80-9F, 0xF0 → 90-BF, 0xF4 → 80-8F), which rules
out overlong, surrogate and out-of-range sequences.  The fuel argument
(the input length suffices, since every step consumes at least one
byte) keeps the recursion structural. -/
def utf8DecodeReplaceGo : Nat → List Nat → List Char
  | 0, _ => []
  | _, [] => []
  | fuel + 1, b :: rest =>
    if b < 0x80 then Char.ofNat b :: utf8DecodeReplaceGo fuel rest
    else if b < 0xC2 then Char.ofNat 0xFFFD :: utf8DecodeReplaceGo fuel rest
    else if b ≤ 0xDF then
      match rest with
      | b2 :: rest2 =>
        if 0x80 ≤ b2 ∧ b2 ≤ 0xBF then
          Char.ofNat ((b - 0xC0) * 64 + (b2 - 0x80)) :: utf8DecodeReplaceGo fuel rest2
        else Char.ofNat 0xFFFD :: utf8DecodeReplaceGo fuel (b2 :: rest2)
      | [] => [Char.ofNat 0xFFFD]
    else if b ≤ 0xEF then
      let lo2 := if b = 0xE0 then 0xA0 else 0x80
      let hi2 := if b = 0xED then 0x9F else 0xBF
      match rest with
      | b2 :: rest2 =>
        if lo2 ≤ b2 ∧ b2 ≤ hi2 then
          match rest2 with
          | b3 :: rest3 =>
            if 0x80 ≤ b3 ∧ b3 ≤ 0xBF then
              Char.ofNat ((b - 0xE0) * 4096 + (b2 - 0x80) * 64 + (b3 - 0x80)) ::
                utf8DecodeReplaceGo fuel rest3
            else Char.ofNat 0xFFFD :: utf8DecodeReplaceGo fuel (b3 :: rest3)
          | [] => [Char.ofNat 0xFFFD]
        else Char.ofNat 0xFFFD :: utf8DecodeReplaceGo fuel (b2 :: rest2)
      | [] => [Char.ofNat 0xFFFD]
    else if b ≤ 0xF4 then
      let lo2 := if b = 0xF0 then 0x90 else 0x80
      let hi2 := if b = 0xF4 then 0x8F else 0xBF
      match rest with
      | b2 :: rest2 =>
        if lo2 ≤ b2 ∧ b2 ≤ hi2 then
          match rest2 with
          | b3 :: rest3 =>
            if 0x80 ≤ b3 ∧ b3 ≤ 0xBF then
              match rest3 with
              | b4 :: rest4 =>
                if 0x80 ≤ b4 ∧ b4 ≤ 0xBF then
                  Char.ofNat
                      ((b - 0xF0) * 262144 + (b2 - 0x80) * 4096 + (b3 - 0x80) * 64 + (b4 - 0x80)) ::
                    utf8DecodeReplaceGo fuel rest4
                else Char.ofNat 0xFFFD :: utf8DecodeReplaceGo fuel (b4 :: rest4)
              | [] => [Char.ofNat 0xFFFD]
            else Char.ofNat 0xFFFD :: utf8DecodeReplaceGo fuel (b3 :: rest3)
          | [] => [Char.ofNat 0xFFFD]
        else Char.ofNat 0xFFFD :: utf8DecodeReplaceGo fuel (b2 :: rest2)
      | [] => [Char.ofNat 0xFFFD]
    else Char.ofNat 0xFFFD :: utf8DecodeReplaceGo fuel rest

def utf8DecodeReplaceL (l : List Nat) : List Char := utf8DecodeReplaceGo l.length l

def utf8DecodeReplace (bytes : List Nat) : String := ⟨utf8DecodeReplaceL bytes⟩

example : utf8DecodeReplaceL [0xE4, 0xB8, 0xAD] = ['中'] := rfl
example : utf8DecodeReplaceL [0xE4, 0x80, 0x41] = [Char.ofNat 0xFFFD, 'A'] := rfl
example : utf8DecodeReplaceL [0xE4, 0x80] = [Char.ofNat 0xFFFD] := rfl
example : utf8DecodeReplaceL [0xED, 0xA0, 0x80] =
    [Char.ofNat 0xFFFD, Char.ofNat 0xFFFD, Char.ofNat 0xFFFD] := rfl

/-! ## Base64 (CryptoJS `enc.Base64`) -/

/-- The standard base64 alphabet used by `CryptoJS.enc.Base64._map`. -/
def b64Alphabet : List Char :=
  [ 'A','B','C','D','E','F','G','H','I','J','K','L','M','N','O','P','Q','R','S','T','U','V','W','X','Y','Z',
    'a','b','c','d','e','f','g','h','i','j','k','l','m','n','o','p','q','r','s','t','u','v','w','x','y','z',
    '0','1','2','3','4','5','6','7','8','9','+','/' ]

def b64CharOf (n : Nat) : Char := b64Alphabet.getD n 'A'

/-- The `CryptoJS.enc.Base64._reverseMap` lookup; characters outside the
alphabet come out as `undefined`, which behaves as 0 in the bit
arithmetic of `parseLoop`. -/
def b64Rev (c : Char) : Nat := ((b64Alphabet.indexOf? c).getD 0)

/-- Base64 of one 3-byte group. -/
def b64Group3 (a b c : Nat) : List Char :=
  let n := (a % 256) * 65536 + (b % 256) * 256 + c % 256
  [b64CharOf (n / 262144), b64CharOf (n / 4096 % 64), b64CharOf (n / 64 % 64), b64CharOf (n % 64)]

/-- Model of `CryptoJS.enc.Base64.stringify`: standard base64 with `=` padding. -/
def b64Stringify : List Nat → String
  | [] => ""
  | [a] =>
    ⟨[b64CharOf (a % 256 / 4), b64CharOf (a % 256 % 4 * 16), '=', '=']⟩
  | [a, b] =>
    ⟨[b64CharOf (a % 256 / 4), b64CharOf (a % 256 % 4 * 16 + b % 256 / 16),
      b64CharOf (b % 256 % 16 * 4), '=']⟩
  | a :: b :: c :: rest => ⟨b64Group3 a b c⟩ ++ b64Stringify rest

/-- One byte of `CryptoJS.enc.Base64.parse`'s `parseLoop`: at string index
`i` with `i % 4 ≠ 0` the produced byte is
`(reverseMap[s[i-1]] <<< (i % 4 * 2) ||| reverseMap[s[i]] >>> (6 - i % 4 * 2)) &&& 0xff`
(the bits that overflow the byte duplicate bits already stored in the
previous byte, so masking to 8 bits is exact). -/
def b64ParseByte (l : List Char) (i : Nat) : Nat :=
  ((b64Rev (l.getD (i - 1) 'A')) <<< (i % 4 * 2) |||
   (b64Rev (l.getD i 'A')) >>> (6 - i % 4 * 2)) % 256

/-- Model of `CryptoJS.enc.Base64.parse`: the effective length stops at the first
`=`, then `parseLoop` emits one byte per index not divisible by 4. -/
def b64Parse (s : String) : List Nat :=
  let l := s.data
  let effLen := (l.indexOf? '=').getD l.length
  ((List.range effLen).filter (fun i => ¬ i % 4 = 0)).map (b64ParseByte l)

/-! ## Hex (CryptoJS `enc.Hex`, and `parseInt(_, 16)`) -/

def isHexDigit (c : Char) : Bool :=
  ('0' ≤ c ∧ c ≤ '9') ∨ ('a' ≤ c ∧ c ≤ 'f') ∨ ('A' ≤ c ∧ c ≤ 'F')

def hexDigitVal (c : Char) : Nat :=
  if '0' ≤ c ∧ c ≤ '9' then c.toNat - 48
  else if 'a' ≤ c ∧ c ≤ 'f' then c.toNat - 87
  else if 'A' ≤ c ∧ c ≤ 'F' then c.toNat - 55
  else 0

def hexDigitChar (n : Nat) : Char :=
  if n < 10 then Char.ofNat (48 + n) else Char.ofNat (87 + n % 16)

/-- Model of `CryptoJS.enc.Hex.stringify`: two lowercase hex digits per byte. -/
def hexStringify (bytes : List Nat) : String :=
  ⟨bytes.flatMap (fun b => [hexDigitChar (b % 256 / 16), hexDigitChar (b % 256 % 16)])⟩

/-- JS `parseInt(s, 16)` on a 1- or 2-character chunk: parses the longest
valid hex-digit prefix; an empty prefix gives `NaN`, which behaves as 0
both in bit arithmetic and in a `Uint8Array` store. -/
def hexChunkVal : List Char → Nat
  | [] => 0
  | [c] => if isHexDigit c then hexDigitVal c else 0
  | c :: d :: _ =>
    if isHexDigit c then
      if isHexDigit d then hexDigitVal c * 16 + hexDigitVal d else hexDigitVal c
    else 0

/-- Split a character list into chunks of two (the last may be a single
character), as `hexStr.substr(i, 2)` with `i += 2` and as the regex
`/.{1,2}/g` do. -/
def chunkPairs : List Char → List (List Char)
  | [] => []
  | [c] => [[c]]
  | c :: d :: rest => [c, d] :: chunkPairs rest

/-- Model of `CryptoJS.enc.Hex.parse`: one value per 2-character chunk. -/
def hexParse (s : String) : List Nat := (chunkPairs s.data).map hexChunkVal

/-! ## `EncodingUtils` (compound-encoding codec) -/

/-- A JavaScript value flowing through the codec: either a string or a
CryptoJS `WordArray` (modelled by its byte list). -/
inductive JSVal where
  | str : String → JSVal
  | wa : List Nat → JSVal
deriving DecidableEq

/-- URL-safe serialization used by `EncodingUtils.encode`:
`.replace(/\+/g, '-').replace(/\//g, '_').replace(/=/g, '')`. -/
def toUrlSafeB64 (s : String) : String :=
  ⟨(((s.data.map (fun c => if c = '+' then '-' else c)).map
      (fun c => if c = '/' then '_' else c)).filter (fun c => ¬ c = '='))⟩

/-- The BASE64_URLSAFE preprocessing of `EncodingUtils.decode`:
`-`/`_` restored to `+`/`/`, then `=` appended while `length % 4 !== 0`. -/
def fromUrlSafeB64 (s : String) : String :=
  let l := (s.data.map (fun c => if c = '-' then '+' else c)).map
      (fun c => if c = '_' then '/' else c)
  ⟨l ++ List.replicate ((4 - l.length % 4) % 4) '='⟩

namespace EncodingUtils

/-- The loop body of `EncodingUtils.encode` over the reversed encoding
list.  The running value stays a `WordArray` (the initial string is
parsed to one, and the HEX/BASE64 branches re-parse their own stringify
output), so the state is the byte list; a BASE64_URLSAFE step returns the
final string immediately, and an unknown name throws. -/
def encodeSteps (bytes : List Nat) : List String → Except Unit (Sum (List Nat) String)
  | [] => .ok (.inl bytes)
  | e :: rest =>
    match jsToUpper e with
    | "UTF8" => encodeSteps bytes rest
    | "HEX" => encodeSteps (hexParse (hexStringify bytes)) rest
    | "BASE64" => encodeSteps (b64Parse (b64Stringify bytes)) rest
    | "BASE64_URLSAFE" => .ok (.inr (toUrlSafeB64 (b64Stringify bytes)))
    | _ => .error ()

/-- Model of `EncodingUtils.encode(data, encodings)`: strings are first parsed as
UTF-8 to a `WordArray`; the encodings are visited in reverse order; if no
BASE64_URLSAFE step returned, the final `WordArray` is rendered as
standard base64. -/
def encode (data : JSVal) (encodings : List String) : Except Unit String := do
  let bytes := match data with
    | .str s => utf8Encode s
    | .wa w => w
  match ← encodeSteps bytes encodings.reverse with
  | .inl w => pure (b64Stringify w)
  | .inr s => pure s

/-- One step of the `EncodingUtils.decode` loop.  Every branch acts only
when the value has the matching runtime type; the UTF8 branch calls
`CryptoJS.enc.Utf8.stringify`, whose "Malformed UTF-8 data" error is not
caught inside the loop. -/
def decodeStep (v : JSVal) (e : String) : Except Unit JSVal :=
  match jsToUpper e with
  | "UTF8" =>
    match v with
    | .wa w =>
      match utf8DecodeStrict w with
      | some s => .ok (.str s)
      | none => .error ()
    | .str s => .ok (.str s)
  | "HEX" =>
    match v with
    | .str s => .ok (.wa (hexParse s))
    | w => .ok w
  | "BASE64" =>
    match v with
    | .str s => .ok (.wa (b64Parse s))
    | w => .ok w
  | "BASE64_URLSAFE" =>
    match v with
    | .str s => .ok (.wa (b64Parse (fromUrlSafeB64 s)))
    | w => .ok w
  | _ => .error ()

def decodeSteps (v : JSVal) : List String → Except Unit JSVal
  | [] => .ok v
  | e :: rest => do decodeSteps (← decodeStep v e) rest

/-- The final byte-to-text step of `EncodingUtils.decode` (the
`try { Utf8.stringify } catch { toString(Base64) }` block): valid UTF-8
is returned as text, anything else as its standard base64 rendering. -/
def decodeFinal (w : List Nat) : String :=
  match utf8DecodeStrict w with
  | some s => s
  | none => b64Stringify w

/-- Model of `EncodingUtils.decode(data, encodings)`. -/
def decode (data : String) (encodings : List String) : Except Unit String := do
  match ← decodeSteps (.str data) encodings with
  | .str s => pure s
  | .wa w => pure (decodeFinal w)

end EncodingUtils

example : EncodingUtils.encode (.str "abc") ["HEX"] = .ok "YWJj" := rfl
example : EncodingUtils.encode (.str "abc") ["UTF8"] = .ok "YWJj" := rfl
example : EncodingUtils.decode "YWJj" ["UTF8"] = .ok "YWJj" := rfl
example : EncodingUtils.decode "YWJj" ["BASE64"] = .ok "abc" := rfl
example : EncodingUtils.decode "/w==" ["BASE64"] = .ok "/w==" := rfl

/-! ## A small regular-expression engine

The classifier's rules are JavaScript regular expressions; they are
transcribed below as abstract syntax (`Rx`) and evaluated by a
backtracking matcher.  `Rx.run` returns the list of possible remaining
suffixes after matching a prefix of the input; the fuel argument only
bounds the recursion depth and is chosen large enough for every use. -/

inductive Rx where
  | eps : Rx
  | cls : (Char → Bool) → Rx
  | cat : Rx → Rx → Rx
  | alt : Rx → Rx → Rx
  | rep : Rx → Nat → Option Nat → Rx

def hiPred : Option Nat → Option Nat
  | none => none
  | some 0 => some 0
  | some (n + 1) => some n

def Rx.run : Nat → Rx → List Char → List (List Char)
  | 0, _, _ => []
  | _ + 1, .eps, s => [s]
  | _ + 1, .cls p, s =>
    match s with
    | [] => []
    | c :: cs => if p c then [cs] else []
  | fuel + 1, .cat a b, s => ((a.run fuel s).map (b.run fuel)).flatten
  | fuel + 1, .alt a b, s => a.run fuel s ++ b.run fuel s
  | fuel + 1, .rep a lo hi, s =>
    match lo with
    | m + 1 => ((a.run fuel s).map (Rx.run fuel (.rep a m (hiPred hi)))).flatten
    | 0 =>
      match hi with
      | some 0 => [s]
      | _ =>
        s :: ((a.run fuel s).map (fun s' =>
          if s'.length < s.length then Rx.run fuel (.rep a 0 (hiPred hi)) s' else [])).flatten

/-- Fuel bound: depth of the search tree.  Counted repetitions in the
patterns below are bounded by 61 and star iterations consume at least one
character, so a generous linear bound suffices. -/
def rxFuel (s : List Char) : Nat := 600 * (s.length + 2) + 600

/-- JS `re.test(s)` for a `^...$`-anchored pattern (the anchors are
dropped from the transcription and full-match is required). -/
def rxTest (r : Rx) (s : String) : Bool :=
  (Rx.run (rxFuel s.data) r s.data).any (fun rest => rest.isEmpty)

/-- JS `re.test(s)` for an unanchored pattern: a match may start anywhere. -/
def rxSearchAux (r : Rx) : List Char → Bool
  | [] => ¬ (Rx.run (rxFuel []) r []).isEmpty
  | c :: rest =>
    (¬ (Rx.run (rxFuel (c :: rest)) r (c :: rest)).isEmpty) || rxSearchAux r rest

def rxSearch (r : Rx) (s : String) : Bool := rxSearchAux r s.data

/-! ### The classifier's patterns (popup `detectContentType`) -/

def isDigitC (c : Char) : Bool := '0' ≤ c ∧ c ≤ '9'
def isHexC (c : Char) : Bool := isHexDigit c
def rxD : Rx := .cls isDigitC
def rxChar (c : Char) : Rx := .cls (fun d => d = c)
def rxRange (lo hi : Char) : Rx := .cls (fun d => lo ≤ d ∧ d ≤ hi)

/-- One octet of the IPv4 pattern: `(25[0-5]|2[0-4][0-9]|[01]?[0-9][0-9]?)`. -/
def rxOctet : Rx :=
  .alt (.cat (rxChar '2') (.cat (rxChar '5') (rxRange '0' '5')))
    (.alt (.cat (rxChar '2') (.cat (rxRange '0' '4') rxD))
      (.cat (.rep (.cls (fun c => c = '0' ∨ c = '1')) 0 (some 1))
        (.cat rxD (.rep rxD 0 (some 1)))))

/-- Pattern `/^((25[0-5]|2[0-4][0-9]|[01]?[0-9][0-9]?)\.){3}(25[0-5]|2[0-4][0-9]|[01]?[0-9][0-9]?)$/`. -/
def ipv4Pattern : Rx := .cat (.rep (.cat rxOctet (rxChar '.')) 3 (some 3)) rxOctet

/-- Pattern `/^[\d\.]+$/` (used to rule out dotted numbers before the IPv6 test). -/
def digitsDotsPattern : Rx := .rep (.cls (fun c => isDigitC c ∨ c = '.')) 1 none

/-- Fragment `[0-9a-fA-F]{1,4}`. -/
def rxH14 : Rx := .rep (.cls isHexC) 1 (some 4)

/-- Pattern `/^([0-9a-fA-F]{1,4}:){7}[0-9a-fA-F]{1,4}$/`. -/
def ipv6FullPattern : Rx := .cat (.rep (.cat rxH14 (rxChar ':')) 7 (some 7)) rxH14

/-- The compressed-IPv6 pattern, one `Rx.alt` per `|`-alternative of the
source regex. -/
def ipv6CompressedPattern : Rx :=
  .alt (.cat (.rep (.cat rxH14 (rxChar ':')) 1 (some 7)) (rxChar ':'))
  (.alt (.cat (rxChar ':') (.alt (.rep (.cat rxH14 (rxChar ':')) 1 (some 7)) (rxChar ':')))
  (.alt (.cat (.rep (.cat rxH14 (rxChar ':')) 1 (some 6)) (.cat (rxChar ':') rxH14))
  (.alt (.cat (.rep (.cat rxH14 (rxChar ':')) 1 (some 5)) (.rep (.cat (rxChar ':') rxH14) 1 (some 2)))
  (.alt (.cat (.rep (.cat rxH14 (rxChar ':')) 1 (some 4)) (.rep (.cat (rxChar ':') rxH14) 1 (some 3)))
  (.alt (.cat (.rep (.cat rxH14 (rxChar ':')) 1 (some 3)) (.rep (.cat (rxChar ':') rxH14) 1 (some 4)))
  (.alt (.cat (.rep (.cat rxH14 (rxChar ':')) 1 (some 2)) (.rep (.cat (rxChar ':') rxH14) 1 (some 5)))
  (.alt (.cat rxH14 (.cat (rxChar ':') (.rep (.cat (rxChar ':') rxH14) 1 (some 6))))
        (.cat (rxChar ':') (.alt (.rep (.cat (rxChar ':') rxH14) 1 (some 7)) (rxChar ':'))))))))))

/-- Pattern `/^((...)\.){3}(...)\/([1-9]|[12][0-9]|3[0-2])$/`. -/
def cidrPattern : Rx :=
  .cat (.rep (.cat rxOctet (rxChar '.')) 3 (some 3))
    (.cat rxOctet
      (.cat (rxChar '/')
        (.alt (rxRange '1' '9')
          (.alt (.cat (.cls (fun c => c = '1' ∨ c = '2')) rxD)
            (.cat (rxChar '3') (rxRange '0' '2'))))))

/-- Pattern `/^([0-9a-fA-F]{1,4}(:[0-9a-fA-F]{1,4}){0,7}|:|::)(\/(1[0-2][0-8]|[1-9][0-9]|[0-9]))$/`. -/
def ipv6CidrPattern : Rx :=
  .cat
    (.alt (.cat rxH14 (.rep (.cat (rxChar ':') rxH14) 0 (some 7)))
      (.alt (rxChar ':') (.cat (rxChar ':') (rxChar ':'))))
    (.cat (rxChar '/')
      (.alt (.cat (rxChar '1') (.cat (rxRange '0' '2') (rxRange '0' '8')))
        (.alt (.cat (rxRange '1' '9') rxD) rxD)))

/-- The cron token class `[\d\*\/,\-\?]`. -/
def isCronTok (c : Char) : Bool :=
  isDigitC c ∨ c = '*' ∨ c = '/' ∨ c = ',' ∨ c = '-' ∨ c = '?'

/-- Pattern `/^([\d\*\/,\-\?]+\s+){n}[\d\*\/,\-\?]+$/` for n = 4, 5, 6. -/
def cronPattern (n : Nat) : Rx :=
  .cat (.rep (.cat (.rep (.cls isCronTok) 1 none) (.rep (.cls isJsWhitespace) 1 none)) n (some n))
    (.rep (.cls isCronTok) 1 none)

/-- Pattern `/^\d{10}$|^\d{13}$/`. -/
def timestampPattern : Rx := .alt (.rep rxD 10 (some 10)) (.rep rxD 13 (some 13))

/-- Pattern `/^\d{4}-\d{2}-\d{2}(\s+\d{2}:\d{2}:\d{2})?$/`. -/
def dateTimePattern : Rx :=
  .cat (.rep rxD 4 (some 4))
    (.cat (rxChar '-')
      (.cat (.rep rxD 2 (some 2))
        (.cat (rxChar '-')
          (.cat (.rep rxD 2 (some 2))
            (.rep
              (.cat (.rep (.cls isJsWhitespace) 1 none)
                (.cat (.rep rxD 2 (some 2))
                  (.cat (rxChar ':')
                    (.cat (.rep rxD 2 (some 2))
                      (.cat (rxChar ':') (.rep rxD 2 (some 2)))))))
              0 (some 1))))))

def isB64Char (c : Char) : Bool :=
  ('A' ≤ c ∧ c ≤ 'Z') ∨ ('a' ≤ c ∧ c ≤ 'z') ∨ isDigitC c ∨ c = '+' ∨ c = '/'

/-- Pattern `/^[A-Za-z0-9+/]*={0,2}$/`. -/
def base64Pattern : Rx := .cat (.rep (.cls isB64Char) 0 none) (.rep (rxChar '=') 0 (some 2))

/-- Pattern `/%[0-9A-Fa-f]{2}/` (unanchored). -/
def urlEncodedPattern : Rx := .cat (rxChar '%') (.cat (.cls isHexC) (.cls isHexC))

def isAlnumC (c : Char) : Bool :=
  ('a' ≤ c ∧ c ≤ 'z') ∨ ('A' ≤ c ∧ c ≤ 'Z') ∨ isDigitC c

/-- Fragment `[a-zA-Z0-9]([a-zA-Z0-9\-]{0,61}[a-zA-Z0-9])?`. -/
def rxDomainLabel : Rx :=
  .cat (.cls isAlnumC)
    (.rep (.cat (.rep (.cls (fun c => isAlnumC c ∨ c = '-')) 0 (some 61)) (.cls isAlnumC))
      0 (some 1))

/-- Pattern `/^[a-zA-Z0-9]([a-zA-Z0-9\-]{0,61}[a-zA-Z0-9])?(\.[a-zA-Z0-9](...)?)*\.[a-zA-Z]{2,}$/`. -/
def domainPattern : Rx :=
  .cat rxDomainLabel
    (.cat (.rep (.cat (rxChar '.') rxDomainLabel) 0 none)
      (.cat (rxChar '.')
        (.rep (.cls (fun c => ('a' ≤ c ∧ c ≤ 'z') ∨ ('A' ≤ c ∧ c ≤ 'Z'))) 2 none)))

example : rxTest ipv4Pattern "192.168.1.1" = true := by decide
example : rxTest ipv4Pattern "256.1.1.1" = false := by decide
example : rxTest ipv6FullPattern "2001:0db8:0000:0000:0000:0000:0000:0001" = true := by decide
example : rxTest ipv6CompressedPattern "2001:db8::1" = true := by decide
example : rxTest cidrPattern "192.168.1.0/24" = true := by decide
example : rxTest ipv6CidrPattern "2001:db8::/32" = false := by decide
example : rxTest (cronPattern 4) "0 0 * * *" = true := by decide
example : rxTest timestampPattern "1111111111" = true := by decide
example : rxTest dateTimePattern "2024-01-02 03:04:05" = true := by decide
example : rxTest base64Pattern "MTIzNA==" = true := by decide
example : rxSearch urlEncodedPattern "http%3A%2F" = true := by decide
example : rxTest domainPattern "example.com" = true := by decide

/-! ## `analyzePrintableCharacters` (`src/pastekit/utils/textutils.js`) -/

/-- The ranges of `EXTENDED_PRINTABLE_REGEX`, in source order (UTF-16
code-unit values; all ranges lie in the BMP, so a supplementary-plane
character contributes two surrogate code units, neither of which is in
any range). -/
def printableRanges : List (Nat × Nat) :=
  [ (0x20, 0x7E), (0xA0, 0xFF), (0x2000, 0x206F), (0x20A0, 0x20CF), (0x2100, 0x214F),
    (0x2200, 0x22FF), (0x2300, 0x23FF), (0x2400, 0x243F), (0x2500, 0x257F), (0x2580, 0x259F),
    (0x25A0, 0x25FF), (0x2600, 0x26FF), (0x2700, 0x27BF), (0x2800, 0x28FF), (0x2900, 0x297F),
    (0x2980, 0x29FF), (0x2A00, 0x2AFF), (0x2B00, 0x2BFF), (0x2C00, 0x2C5F), (0x2C60, 0x2C7F),
    (0x2C80, 0x2CFF), (0x2D00, 0x2D2F), (0x2D30, 0x2D7F), (0x2D80, 0x2DDF), (0x2E00, 0x2E7F),
    (0x2E80, 0x2EFF), (0x2F00, 0x2FDF), (0x2FF0, 0x2FFF), (0x3000, 0x303F), (0x3040, 0x309F),
    (0x30A0, 0x30FF), (0x3100, 0x312F), (0x3130, 0x318F), (0x3190, 0x319F), (0x31A0, 0x31BF),
    (0x31C0, 0x31EF), (0x31F0, 0x31FF), (0x3200, 0x32FF), (0x3300, 0x33FF), (0x3400, 0x4DBF),
    (0x4DC0, 0x4DFF), (0x4E00, 0x9FFF), (0xA000, 0xA48F), (0xA490, 0xA4CF), (0xAC00, 0xD7AF),
    (0xF900, 0xFAFF), (0xFE10, 0xFE1F), (0xFE30, 0xFE4F), (0xFE50, 0xFE6F), (0xFF00, 0xFFEF) ]

def isExtendedPrintable (c : Char) : Bool :=
  printableRanges.any (fun r => r.fst ≤ c.toNat ∧ c.toNat ≤ r.snd)

/-- The `text.match(EXTENDED_PRINTABLE_REGEX)` match count: BMP characters in
one of the ranges; surrogate halves of supplementary characters never
match. -/
def printableCount (s : String) : Nat :=
  (s.data.filter (fun c => c.toNat < 0x10000 ∧ isExtendedPrintable c)).length

/-- Model of `analyzePrintableCharacters(text).isReadable`: printable-character
share at least 0.5 (`printableChars / totalChars >= 0.5`, stated
exactly over naturals; for the text lengths a JS string can have, the
floating-point division rounds to at least 0.5 exactly when
`2 * printable >= total`).  The empty string gets ratio 0 and is not
readable. -/
def isReadable (s : String) : Bool :=
  if 0 < jsLength s then 2 * printableCount s ≥ jsLength s else false

example : isReadable "hello" = true := by decide
example : isReadable "" = false := by decide
example : isReadable ⟨[Char.ofNat 1, Char.ofNat 2, 'a']⟩ = false := by decide

/-! ## `decodeHex` (encode tool) -/

/-- Rendering of one byte in the byte-array branch of `decodeHex`.  The
source maps `byte => '0x' + byte.toString(16).padStart(2, '0')` over the
`Uint8Array`, but `Uint8Array.prototype.map` stores the callback's
result back through `ToNumber`: the hex numeric string `'0x06'` coerces
back to the byte value 6.  `join(' ')` on the resulting `Uint8Array`
therefore renders each byte in decimal. -/
def byteDecimalRender (b : Nat) : List Char :=
  let v := b % 256
  if v < 10 then [Char.ofNat (48 + v)]
  else if v < 100 then [Char.ofNat (48 + v / 10), Char.ofNat (48 + v % 10)]
  else [Char.ofNat (48 + v / 100), Char.ofNat (48 + v / 10 % 10), Char.ofNat (48 + v % 10)]

/-- The object `decodeHex` returns: `{value, isByteArray, byteCount?}`. -/
structure HexDecodeResult where
  value : String
  isByteArray : Bool
  byteCount : Option Nat
deriving DecidableEq

/-- Model of `decodeHex(hex)` of the encode tool.  An odd-length input is repaired
by prepending `'0'`; the chunks are parsed with `parseInt(_, 16)` into a
`Uint8Array`; the bytes are decoded by a non-fatal `TextDecoder`; if
fewer than 70 % of the decoded characters match
`/[\x20-\x7E一-鿿]/g`, a byte-array rendering (space-separated
decimal byte values, see `byteDecimalRender`) is returned instead of
the text.  The only uncaught-then-rewrapped error is
`hex.match(/.{1,2}/g)` returning `null` on the empty string, modelled as
`.error`. -/
def decodeHex (hex : String) : Except Unit HexDecodeResult :=
  let h := if ¬ jsLength hex % 2 = 0 then "0" ++ hex else hex
  if h.data.isEmpty then .error ()
  else
    let bytes := (chunkPairs h.data).map hexChunkVal
    let decodedText := utf8DecodeReplace bytes
    let printables := (decodedText.data.filter
      (fun c => (0x20 ≤ c.toNat ∧ c.toNat ≤ 0x7E) ∨ (0x4E00 ≤ c.toNat ∧ c.toNat ≤ 0x9FFF))).length
    -- printableRatio < 0.7  ⟺  10 * printables < 7 * length (exact over rationals)
    if 10 * printables < 7 * jsLength decodedText then
      .ok ⟨⟨(bytes.map byteDecimalRender).intersperse [' '] |>.flatten⟩, true, some bytes.length⟩
    else
      .ok ⟨decodedText, false, none⟩

example : decodeHex "68695a" = .ok ⟨"hiZ", false, none⟩ := rfl
example : decodeHex "616" = .ok ⟨"6 22", true, some 2⟩ := rfl
example : decodeHex "ff00" = .ok ⟨"255 0", true, some 2⟩ := rfl
example : decodeHex "" = .error () := rfl

/-! ## AES padding and mode selection (`AESCipher`) -/

/-- The CryptoJS padding schemes, the values of the `CryptoJS.pad` object. -/
inductive CJSPad where
  | Pkcs7 | AnsiX923 | Iso10126 | Iso97971 | ZeroPadding | NoPadding
deriving DecidableEq

/-- The property table of the `CryptoJS.pad` object: camel-case keys. -/
def cryptoJSPadTable : List (String × CJSPad) :=
  [ ("Pkcs7", .Pkcs7), ("AnsiX923", .AnsiX923), ("Iso10126", .Iso10126),
    ("Iso97971", .Iso97971), ("ZeroPadding", .ZeroPadding), ("NoPadding", .NoPadding) ]

/-- Lookup `CryptoJS.pad[key]`: `none` models `undefined`. -/
def cryptoJSPadGet (key : String) : Option CJSPad :=
  (cryptoJSPadTable.find? (fun e => e.fst = key)).map (fun e => e.snd)

/-- The block-cipher modes of the `CryptoJS.mode` object (upper-case keys). -/
inductive CJSMode where
  | CBC | CFB | CTR | OFB | ECB
deriving DecidableEq

def cryptoJSModeTable : List (String × CJSMode) :=
  [ ("CBC", .CBC), ("CFB", .CFB), ("CTR", .CTR), ("OFB", .OFB), ("ECB", .ECB) ]

def cryptoJSModeGet (key : String) : Option CJSMode :=
  (cryptoJSModeTable.find? (fun e => e.fst = key)).map (fun e => e.snd)

/-- The padding `AESCipher.encrypt` hands to `CryptoJS.AES.encrypt`:
`cryptoPadding = CryptoJS.pad[padding.toUpperCase()] || CryptoJS.pad.Pkcs7`
is passed in each recognised mode branch of the switch, and the default
branch passes `CryptoJS.pad.Pkcs7` explicitly. -/
def aesEncryptPaddingArg (mode padding : String) : CJSPad :=
  let cryptoPadding := (cryptoJSPadGet (jsToUpper padding)).getD .Pkcs7
  match jsToUpper mode with
  | "ECB" | "CBC" | "CFB" | "OFB" | "CTR" => cryptoPadding
  | _ => .Pkcs7

/-- The test `usePadding = ['ECB', 'CBC'].includes(modeUpper)` of `AESCipher.decrypt`. -/
def aesDecryptUsesDeclared (mode : String) : Bool :=
  jsToUpper mode = "ECB" ∨ jsToUpper mode = "CBC"

/-- The padding `AESCipher.decrypt` hands to `CryptoJS.AES.decrypt`:
`paddingUpper = padding.toUpperCase().replace('PADDING', '')`, looked up
with Pkcs7 fallback, but replaced by `CryptoJS.pad.NoPadding` unless the
mode is ECB or CBC. -/
def aesDecryptPaddingArg (mode padding : String) : CJSPad :=
  let paddingUpper := jsReplaceFirst (jsToUpper padding) "PADDING" ""
  let cryptoPadding := (cryptoJSPadGet paddingUpper).getD .Pkcs7
  if aesDecryptUsesDeclared mode then cryptoPadding else .NoPadding

example : aesEncryptPaddingArg "CTR" "NoPadding" = .Pkcs7 := rfl
example : aesDecryptPaddingArg "CTR" "NoPadding" = .NoPadding := rfl
example : aesDecryptPaddingArg "CBC" "NoPadding" = .Pkcs7 := rfl

/-! ## CTR trailing-zero trim (`AESCipher.decrypt`, lines 288-315) -/

/-- The value `actualLength` after the scan
`for (i = sigBytes - 1; i >= 0; i--) if (bytes[i] === 0) actualLength = i; else break;`:
the length of the byte list with its maximal run of trailing zero bytes
removed. -/
def ctrActualLength (bytes : List Nat) : Nat :=
  bytes.length - (bytes.reverse.takeWhile (fun b => b = 0)).length

/-- Model of `bytes.slice(0, actualLength)`. -/
def ctrTrimZeros (bytes : List Nat) : List Nat := bytes.take (ctrActualLength bytes)

/-- The bytes `AESCipher.decrypt` converts to text: trimmed exactly for
CTR mode, unmodified for every other mode. -/
def aesPlaintextBytes (mode : String) (bytes : List Nat) : List Nat :=
  if jsToUpper mode = "CTR" then ctrTrimZeros bytes else bytes

/-- The tail of `AESCipher.decrypt` after the CryptoJS primitive: CTR
output is trimmed and decoded by a non-fatal `TextDecoder`; other modes
use `decrypted.toString(CryptoJS.enc.Utf8)`, which throws on malformed
UTF-8. -/
def aesDecryptText (mode : String) (bytes : List Nat) : Except Unit String :=
  if jsToUpper mode = "CTR" then .ok (utf8DecodeReplace (ctrTrimZeros bytes))
  else
    match utf8DecodeStrict bytes with
    | some s => .ok s
    | none => .error ()

example : aesDecryptText "CTR" [104, 105, 0, 0] = .ok "hi" := rfl
example : aesDecryptText "CBC" [104, 105, 0, 0] = .ok ⟨['h', 'i', Char.ofNat 0, Char.ofNat 0]⟩ := rfl

/-! ## `decodeURIComponent` -/

/-- A maximal run of `%XX` triples starting the list: returns the decoded
bytes and the remaining characters, or `none` when a `%` is not followed
by two hex digits. -/
def percentRun : Nat → List Char → Option (List Nat × List Char)
  | 0, _ => none
  | fuel + 1, '%' :: c1 :: c2 :: rest =>
    if isHexDigit c1 ∧ isHexDigit c2 then
      match percentRun fuel rest with
      | some (bs, l) => some ((hexDigitVal c1 * 16 + hexDigitVal c2) :: bs, l)
      | none => none
    else none
  | _ + 1, l => some ([], l)

/-- Model of `decodeURIComponent`: percent-triples are decoded as strict UTF-8
byte sequences (a `URIError` for malformed input is `none`); other
characters pass through. -/
def percentDecode : Nat → List Char → Option (List Char)
  | 0, _ => some []
  | _ + 1, [] => some []
  | fuel + 1, '%' :: rest =>
    match percentRun (('%' :: rest).length) ('%' :: rest) with
    | none => none
    | some (bs, l) =>
      match utf8DecodeStrictL bs with
      | none => none
      | some cs =>
        match percentDecode fuel l with
        | none => none
        | some tl => some (cs ++ tl)
  | fuel + 1, c :: rest =>
    match percentDecode fuel rest with
    | none => none
    | some tl => some (c :: tl)

/-- JS `decodeURIComponent(s)` as an `Except`. -/
def jsDecodeURIComponent (s : String) : Except Unit String :=
  match percentDecode (s.data.length + 1) s.data with
  | some l => .ok ⟨l⟩
  | none => .error ()

example : jsDecodeURIComponent "http%3A%2F%2Fa" = .ok "http://a" := rfl
example : jsDecodeURIComponent "%E4%B8%AD" = .ok "中" := rfl
example : jsDecodeURIComponent "%ZZ" = .error () := rfl

/-! ## The classifier (`detectContentType` of the popup) -/

/-- A stored cipher configuration as the classifier reads it: only the
fields the classifier touches; `Option` models fields that may be
`undefined` (the source guards them with `?.`). -/
structure Config where
  algorithm : Option String
  algorithmType : Option String
  mode : Option String
deriving DecidableEq

/-- The classifier's output tags. -/
inductive Tag where
  | ip | ipv6 | cidr | ipv6cidr | cron | timestamp | datetime | encrypted | url | domain | encode
deriving DecidableEq

/-- A decrypt oracle standing for `CipherUtils.decrypt(text, config)`:
`.error` models a thrown Codec/Cipher error. -/
def DecryptOracle : Type := Config → String → Except Unit String

/-- The check `configs.some(config => config.algorithm?.toUpperCase().includes('RSA')
|| config.algorithmType?.toUpperCase() === 'RSA')`. -/
def hasRSAConfig (configs : List Config) : Bool :=
  configs.any (fun c =>
    ((c.algorithm.map (fun a => jsIncludes (jsToUpper a) "RSA")).getD false) ||
    ((c.algorithmType.map (fun a => jsToUpper a == "RSA")).getD false))

/-- Model of `isLikelyRSACipher(content)` of the popup, with the stored config
list passed explicitly (the source reads it from storage; a storage error
is caught and also yields `false`). -/
def isLikelyRSACipher (content : String) (configs : List Config) : Bool :=
  let trimmedContent := jsTrim content
  if ¬ rxTest base64Pattern trimmedContent then false
  else if jsLength trimmedContent < 50 then false
  else
    let isTypicalLength :=
      jsLength trimmedContent = 344 ∨ jsLength trimmedContent = 172 ∨
      jsLength trimmedContent = 256 ∨ jsLength trimmedContent = 128
    if hasRSAConfig configs ∧ (isTypicalLength ∨ jsLength trimmedContent > 100) then true
    else false

/-- The `isCFBMode` test of the sweep: the algorithm string contains `CFB` or
`CTR`, or the mode is exactly `CFB` or `CTR`, after upper-casing. -/
def isCFBMode (config : Config) : Bool :=
  ((config.algorithm.map (fun a => jsIncludes (jsToUpper a) "CFB")).getD false) ||
  ((config.mode.map (fun m => jsToUpper m == "CFB")).getD false) ||
  ((config.algorithm.map (fun a => jsIncludes (jsToUpper a) "CTR")).getD false) ||
  ((config.mode.map (fun m => jsToUpper m == "CTR")).getD false)

/-- The `for (const config of configs)` loop of the speculative
decryption sweep: a thrown decrypt is `continue`; a result that is falsy
or equal to the input is skipped; a CFB/CTR-flagged profile additionally
needs `analyzePrintableCharacters(decrypted).isReadable`; the first
success returns.  The returned config is the side channel naming the
profile that classified the text. -/
def sweepLoop (t : String) (o : DecryptOracle) : List Config → Option Config
  | [] => none
  | config :: rest =>
    match o config t with
    | .error _ => sweepLoop t o rest
    | .ok decrypted =>
      if ¬ decrypted = "" ∧ ¬ decrypted = t then
        if isCFBMode config then
          if isReadable decrypted then some config else sweepLoop t o rest
        else some config
      else sweepLoop t o rest

/-- The per-profile success predicate of the sweep, in the flat form used
by the statements below. -/
def profileSucceeds (t : String) (o : DecryptOracle) (config : Config) : Bool :=
  match o config t with
  | .error _ => false
  | .ok decrypted =>
    (¬ decrypted = "") ∧ (¬ decrypted = t) ∧ (isCFBMode config → isReadable decrypted)

/-- Body of `detectContentType(content)` of the popup (the stored config list and
the decrypt function are explicit parameters; all thrown errors inside
the sweep are caught by the source's `try`/`catch` blocks, which the
`Except`-valued oracle absorbs).  The rules run in source order on the
trimmed content. -/
def detectTrimmed (trimmedContent : String) (configs : List Config) (o : DecryptOracle) : Tag :=
  if rxTest ipv4Pattern trimmedContent then .ip
  else if jsIncludes trimmedContent ":" ∧ ¬ rxTest digitsDotsPattern trimmedContent ∧
      (rxTest ipv6FullPattern trimmedContent ∨ rxTest ipv6CompressedPattern trimmedContent) then
    .ipv6
  else if jsIncludes trimmedContent "/" ∧ rxTest cidrPattern trimmedContent then .cidr
  else if jsIncludes trimmedContent ":" ∧ jsIncludes trimmedContent "/" ∧
      rxTest ipv6CidrPattern trimmedContent then
    .ipv6cidr
  else if rxTest (cronPattern 4) trimmedContent ∨ rxTest (cronPattern 5) trimmedContent ∨
      rxTest (cronPattern 6) trimmedContent then
    .cron
  else if rxTest timestampPattern trimmedContent then .timestamp
  else if rxTest dateTimePattern trimmedContent then .datetime
  else if isLikelyRSACipher trimmedContent configs then .encrypted
  else
    let sweepHit : Option Config :=
      if jsLength trimmedContent > 10 then
        if configs.length > 0 then sweepLoop trimmedContent o configs else none
      else none
    if sweepHit.isSome then .encrypted
    else if jsStartsWith (jsToLower trimmedContent) "http" then .url
    else if rxSearch urlEncodedPattern trimmedContent then
      match jsDecodeURIComponent trimmedContent with
      | .ok decoded =>
        if jsStartsWith (jsToLower decoded) "http" then .url
        else if rxTest domainPattern trimmedContent then .domain
        else if rxTest base64Pattern trimmedContent ∧ jsLength trimmedContent % 4 = 0 ∧
            jsLength trimmedContent > 10 then .encode
        else .encode
      | .error _ =>
        if rxTest domainPattern trimmedContent then .domain
        else if rxTest base64Pattern trimmedContent ∧ jsLength trimmedContent % 4 = 0 ∧
            jsLength trimmedContent > 10 then .encode
        else .encode
    else if rxTest domainPattern trimmedContent then .domain
    else if rxTest base64Pattern trimmedContent ∧ jsLength trimmedContent % 4 = 0 ∧
        jsLength trimmedContent > 10 then .encode
    else .encode

/-- Model of `detectContentType(content)` of the popup: the rules above applied to
`content?.trim() || ''`. -/
def detectContentType (content : Option String) (configs : List Config) (o : DecryptOracle) : Tag :=
  detectTrimmed (jsTrim (content.getD "")) configs o

example : detectContentType (some "192.168.1.1") [] (fun _ _ => .error ()) = .ip := by decide
example : detectContentType (some "2001:db8::1") [] (fun _ _ => .error ()) = .ipv6 := by decide
example : detectContentType (some "192.168.1.0/24") [] (fun _ _ => .error ()) = .cidr := by decide
example : detectContentType (some "0 0 * * *") [] (fun _ _ => .error ()) = .cron := by decide
example : detectContentType (some "1111111111") [] (fun _ _ => .error ()) = .timestamp := by decide
example : detectContentType (some "2024-01-02") [] (fun _ _ => .error ()) = .datetime := by decide
example : detectContentType (some "http://x.y") [] (fun _ _ => .error ()) = .url := by decide
example : detectContentType (some "example.com") [] (fun _ _ => .error ()) = .domain := by decide
example : detectContentType (some "MTIzNA==") [] (fun _ _ => .error ()) = .encode := by decide
example : detectContentType none [] (fun _ _ => .error ()) = .encode := by decide

/-! ## Helper lemmas -/

theorem charToNat_ofNat_small (n : Nat) (h : n < 55296) : (Char.ofNat n).toNat = n := by
  simp [Char.ofNat, Char.toNat, Nat.isValidChar, h, Char.ofNatAux, UInt32.toNat,
    BitVec.toNat_ofNatLt]

/-- The map `jsCharUpper` never produces an ASCII lowercase letter. -/
theorem jsCharUpper_not_lower (c : Char) :
    ¬ (97 ≤ (jsCharUpper c).toNat ∧ (jsCharUpper c).toNat ≤ 122) := by
  unfold jsCharUpper
  split
  case isTrue h => rw [charToNat_ofNat_small _ (by omega)]; omega
  case isFalse h => omega

/-- An upper-cased string is never equal to a string containing an ASCII
lowercase letter. -/
theorem key_ne_jsToUpper (s k : String) (c : Char) (hmem : c ∈ k.data)
    (hlo : 97 ≤ c.toNat) (hhi : c.toNat ≤ 122) : ¬ k = jsToUpper s := by
  intro h
  have hd : k.data = s.data.map jsCharUpper := by rw [h]; rfl
  rw [hd] at hmem
  obtain ⟨a, _, ha⟩ := List.mem_map.mp hmem
  exact jsCharUpper_not_lower a (by rw [ha]; exact ⟨hlo, hhi⟩)

/-- Every key of the `CryptoJS.pad` object contains a lowercase letter,
so the lookup with an upper-cased key always misses. -/
theorem cryptoJSPadGet_jsToUpper (s : String) : cryptoJSPadGet (jsToUpper s) = none := by
  have h1 := key_ne_jsToUpper s "Pkcs7" 'k' (by decide) (by decide) (by decide)
  have h2 := key_ne_jsToUpper s "AnsiX923" 'n' (by decide) (by decide) (by decide)
  have h3 := key_ne_jsToUpper s "Iso10126" 's' (by decide) (by decide) (by decide)
  have h4 := key_ne_jsToUpper s "Iso97971" 's' (by decide) (by decide) (by decide)
  have h5 := key_ne_jsToUpper s "ZeroPadding" 'e' (by decide) (by decide) (by decide)
  have h6 := key_ne_jsToUpper s "NoPadding" 'o' (by decide) (by decide) (by decide)
  have : cryptoJSPadTable.find? (fun e => e.fst = jsToUpper s) = none := by
    rw [List.find?_eq_none]
    intro x hx
    fin_cases hx <;> simpa using (by assumption)
  simp [cryptoJSPadGet, this]

theorem takeWhile_replicate_zero_append (k : Nat) (l : List Nat) :
    List.takeWhile (fun b => decide (b = 0)) (List.replicate k 0 ++ l) =
      List.replicate k 0 ++ List.takeWhile (fun b => decide (b = 0)) l := by
  induction k with
  | zero => simp
  | succ n ih => simp [List.replicate_succ, List.takeWhile, ih]

theorem ctrTrimZeros_append_zeros (b : List Nat) (k : Nat) :
    ctrTrimZeros (b ++ List.replicate k 0) = ctrTrimZeros b := by
  have hle : (List.takeWhile (fun x => decide (x = 0)) b.reverse).length ≤ b.length := by
    have h := (List.takeWhile_sublist (l := b.reverse) (fun x => decide (x = 0))).length_le
    simpa using h
  unfold ctrTrimZeros ctrActualLength
  rw [List.reverse_append, List.reverse_replicate, takeWhile_replicate_zero_append]
  simp only [List.length_append, List.length_replicate]
  rw [show b.length + k - (k + (List.takeWhile (fun x => decide (x = 0)) b.reverse).length)
      = b.length - (List.takeWhile (fun x => decide (x = 0)) b.reverse).length by omega]
  exact List.take_append_of_le_length (by omega)

theorem ctrTrimZeros_no_trailing_zero (b : List Nat) (j : Nat)
    (hlast : b.getLast? = some j) (hj : ¬ j = 0) : ctrTrimZeros b = b := by
  unfold ctrTrimZeros ctrActualLength
  have hrev : b.reverse.head? = some j := by rw [List.head?_reverse]; exact hlast
  obtain ⟨t, ht⟩ : ∃ t, b.reverse = j :: t := by
    cases hb : b.reverse with
    | nil => rw [hb] at hrev; simp at hrev
    | cons x t => rw [hb] at hrev; simp at hrev; exact ⟨t, by rw [hrev]⟩
  rw [ht]
  simp [List.takeWhile, hj, List.take_of_length_le]

/-! ## Claim theorems -/

/-- Claim C1 (code bug).  The round-trip law `decode(encode(P, E), E) = P`
fails: in `EncodingUtils.encode` the HEX and BASE64 chain steps stringify
the word array and immediately re-parse the result, which is the identity
on the byte state, so the encoder emits standard base64 for every chain
without a BASE64_URLSAFE step.  At payload "abc" (bytes 97 98 99) with
chain ["HEX"], encode yields "YWJj" (base64, not "616263"), and decode
hex-parses that base64 text into two zero bytes; with chain ["UTF8"],
decode returns the base64 text itself.  Both round trips lose the
payload. -/
theorem c1_roundtrip_code_bug :
    EncodingUtils.encode (.str "abc") ["HEX"] = .ok "YWJj" ∧
    EncodingUtils.encode (.wa [97, 98, 99]) ["HEX"] = .ok "YWJj" ∧
    EncodingUtils.decode "YWJj" ["HEX"] = .ok ⟨[Char.ofNat 0, Char.ofNat 0]⟩ ∧
    EncodingUtils.encode (.str "abc") ["UTF8"] = .ok "YWJj" ∧
    EncodingUtils.decode "YWJj" ["UTF8"] = .ok "YWJj" ∧
    ¬ (("YWJj" : String) = "abc") ∧ ¬ ((⟨[Char.ofNat 0, Char.ofNat 0]⟩ : String) = "abc") :=
  ⟨rfl, rfl, rfl, rfl, rfl, by decide, by decide⟩

/-- Claim C3 (counterexample).  The claim says `encrypt` forces "no
padding" for CTR regardless of the declared padding; in fact
`AESCipher.encrypt` passes
`CryptoJS.pad[padding.toUpperCase()] || Pkcs7` for every mode, which for
the declared padding "NoPadding" resolves to Pkcs7 (the upper-cased key
misses the camel-case table), not to NoPadding. -/
theorem c3_counterexample :
    aesEncryptPaddingArg "CTR" "NoPadding" = .Pkcs7 ∧ ¬ (CJSPad.Pkcs7 = CJSPad.NoPadding) :=
  ⟨rfl, by decide⟩

/-- Claim C3 (amended).  Only `decrypt` forces NoPadding, and it does so
for every mode outside {ECB, CBC}; `encrypt` never forces NoPadding: it
passes the resolved declared padding for every mode, and the resolution
(`CryptoJS.pad[padding.toUpperCase()] || Pkcs7`) always yields Pkcs7
because the upper-cased key never matches the camel-case table keys. -/
theorem c3_amended (mode padding : String) (h : aesDecryptUsesDeclared mode = false) :
    aesDecryptPaddingArg mode padding = .NoPadding ∧
    aesEncryptPaddingArg mode padding = .Pkcs7 := by
  constructor
  · simp [aesDecryptPaddingArg, h]
  · unfold aesEncryptPaddingArg
    rw [cryptoJSPadGet_jsToUpper]
    split <;> rfl

theorem c3_amended_witness :
    aesDecryptPaddingArg "CTR" "NoPadding" = .NoPadding ∧
    aesEncryptPaddingArg "CTR" "NoPadding" = .Pkcs7 :=
  c3_amended "CTR" "NoPadding" (by decide)

/-- Claim C5 (confirmed).  `AESCipher.decrypt` trims trailing zero bytes
exactly for CTR mode: for any other mode the decrypted bytes are used
unmodified; under CTR the whole maximal run of trailing zero bytes is
removed (appending any run of zero bytes does not change the result),
and a byte sequence ending in a non-zero byte is kept intact — so a
genuine plaintext ending in null bytes is returned truncated. -/
theorem c5_ctr_trim (mode : String) (b : List Nat) (k j : Nat) :
    (¬ jsToUpper mode = "CTR" → aesPlaintextBytes mode b = b) ∧
    aesPlaintextBytes "CTR" (b ++ List.replicate k 0) = aesPlaintextBytes "CTR" b ∧
    aesDecryptText "CTR" (b ++ List.replicate k 0) = aesDecryptText "CTR" b ∧
    (b.getLast? = some j → ¬ j = 0 → aesPlaintextBytes "CTR" b = b) := by
  have hctr : jsToUpper "CTR" = "CTR" := rfl
  refine ⟨fun h => by simp [aesPlaintextBytes, h], ?_, ?_, fun h1 h2 => ?_⟩
  · simp [aesPlaintextBytes, hctr, ctrTrimZeros_append_zeros]
  · simp [aesDecryptText, hctr, ctrTrimZeros_append_zeros]
  · simp [aesPlaintextBytes, hctr, ctrTrimZeros_no_trailing_zero b j h1 h2]

theorem c5_ctr_trim_witness :
    aesPlaintextBytes "CBC" [104, 105] = [104, 105] ∧
    aesPlaintextBytes "CTR" ([104, 105] ++ List.replicate 2 0) = aesPlaintextBytes "CTR" [104, 105] ∧
    aesPlaintextBytes "CTR" [104, 105] = [104, 105] :=
  ⟨(c5_ctr_trim "CBC" [104, 105] 2 105).1 (by decide),
   (c5_ctr_trim "CBC" [104, 105] 2 105).2.1,
   (c5_ctr_trim "CBC" [104, 105] 2 105).2.2.2 (by decide) (by decide)⟩

/-- Claim C9 (counterexample).  The claim says an odd-length hex input
makes decode fail with a `DecodeError`; `decodeHex` instead silently
prepends `'0'` and succeeds: "616" decodes (as "0616") to the bytes
6 and 22, returned as a byte-array rendering ("6 22", in decimal
because `Uint8Array.prototype.map` coerces the rendered strings back to
numbers), not an error. -/
theorem c9_counterexample :
    decodeHex "616" = .ok ⟨"6 22", true, some 2⟩ := rfl

/-- Claim C9 (amended).  An odd-length input to the hex decoding step is
silently repaired, not rejected: `decodeHex` prepends `'0'` and then
behaves exactly as on the even-length input, and it returns a result
(never a `DecodeError`) for every odd-length input. -/
theorem c9_amended (s : String) (h : jsLength s % 2 = 1) :
    decodeHex s = decodeHex ⟨'0' :: s.data⟩ ∧ (decodeHex s).isOk = true := by
  have hodd : ¬ jsLength s % 2 = 0 := by omega
  have hpre : ("0" ++ s : String) = ⟨'0' :: s.data⟩ := by
    apply String.ext; simp
  have heven : jsLength (⟨'0' :: s.data⟩ : String) % 2 = 0 := by
    have hw : jsLength (⟨'0' :: s.data⟩ : String) = utf16Width '0' + jsLength s := by
      simp [jsLength]
    rw [hw, show utf16Width '0' = 1 from rfl]
    omega
  have e1 : (if ¬ jsLength s % 2 = 0 then "0" ++ s else s) = (⟨'0' :: s.data⟩ : String) := by
    rw [if_pos hodd, hpre]
  have e2 : (if ¬ jsLength (⟨'0' :: s.data⟩ : String) % 2 = 0
      then "0" ++ (⟨'0' :: s.data⟩ : String) else (⟨'0' :: s.data⟩ : String)) =
      (⟨'0' :: s.data⟩ : String) := by
    rw [if_neg (by omega)]
  constructor
  · rw [decodeHex, decodeHex, e1, e2]
  · rw [decodeHex, e1]
    rw [if_neg (by simp [List.isEmpty])]
    dsimp only []
    split <;> rfl

theorem c9_amended_witness :
    decodeHex "616" = decodeHex ⟨'0' :: "616".data⟩ ∧ (decodeHex "616").isOk = true :=
  c9_amended "616" (by decide)

/-- Claim C8 (counterexample).  The claim says the RSA-ciphertext rule
fires exactly when the input is base64-alphabet, at least 50 characters
long, and an asymmetric profile is configured, with no further length
condition.  A 60-character base64 input with an RSA profile satisfies all
three conditions, yet `isLikelyRSACipher` rejects it, because the source
additionally requires the length to be one of {344, 172, 256, 128} or to
exceed 100. -/
theorem c8_counterexample :
    isLikelyRSACipher ⟨List.replicate 60 'A'⟩ [⟨some "RSA", some "RSA", none⟩] = false ∧
    rxTest base64Pattern (jsTrim ⟨List.replicate 60 'A'⟩) = true ∧
    50 ≤ jsLength (jsTrim ⟨List.replicate 60 'A'⟩) ∧
    hasRSAConfig [⟨some "RSA", some "RSA", none⟩] = true :=
  ⟨by decide, by decide, by decide, by decide⟩

/-- Claim C8 (amended).  The rule fires exactly when the trimmed input is
base64-alphabet, its length is at least 50, some configured profile is
RSA, **and** the length is one of the typical RSA lengths {344, 172, 256,
128} or greater than 100. -/
theorem c8_amended (content : String) (configs : List Config) :
    isLikelyRSACipher content configs = true ↔
      (rxTest base64Pattern (jsTrim content) = true ∧
       50 ≤ jsLength (jsTrim content) ∧
       hasRSAConfig configs = true ∧
       (jsLength (jsTrim content) = 344 ∨ jsLength (jsTrim content) = 172 ∨
        jsLength (jsTrim content) = 256 ∨ jsLength (jsTrim content) = 128 ∨
        100 < jsLength (jsTrim content))) := by
  unfold isLikelyRSACipher
  dsimp only []
  split
  case isTrue h => simp_all
  case isFalse h =>
    split
    case isTrue h2 => simp_all
    case isFalse h2 =>
      split
      case isTrue h3 =>
        simp only [true_iff]
        refine ⟨by simpa using h, by omega, h3.1, by omega⟩
      case isFalse h3 =>
        simp only [Bool.false_eq_true, false_iff]
        intro ⟨_, _, hr, hlen⟩
        exact h3 ⟨hr, by omega⟩

/-! ### C2: the speculative-sweep success predicate -/

/-- The stream-like-mode test as the **spec** states it (for comparison
with the source's `isCFBMode`): the profile's mode is CFB, OFB or CTR. -/
def specStreamLike (config : Config) : Bool :=
  ((config.mode.map (fun m => jsToUpper m == "CFB")).getD false) ||
  ((config.mode.map (fun m => jsToUpper m == "OFB")).getD false) ||
  ((config.mode.map (fun m => jsToUpper m == "CTR")).getD false)

/-- The per-profile success predicate as the **spec** states it (C2):
decryption completes without error, and for stream-like modes the result
must additionally be readable. -/
def specProfileSucceeds (t : String) (o : DecryptOracle) (config : Config) : Bool :=
  match o config t with
  | .error _ => false
  | .ok decrypted => if specStreamLike config then isReadable decrypted else true

def c2Input : String := ⟨List.replicate 16 '!'⟩

def c2Config : Config := ⟨some "AES/OFB/NoPadding", some "AES", some "OFB"⟩

/-- An oracle whose decryption always "succeeds" with 16 unreadable
control characters (as a wrong-key OFB decryption does). -/
def c2Oracle : DecryptOracle := fun _ _ => .ok ⟨List.replicate 16 (Char.ofNat 1)⟩

/-- Claim C2 (counterexample).  For an OFB profile the code does **not**
apply the readability check (its `isCFBMode` test looks only for CFB and
CTR), so an error-free decryption to unreadable bytes classifies the
input as ciphertext, although the claim (OFB is stream-like, so
`isReadable` is required) says this profile must not succeed. -/
theorem c2_counterexample :
    detectContentType (some c2Input) [c2Config] c2Oracle = .encrypted ∧
    isReadable ⟨List.replicate 16 (Char.ofNat 1)⟩ = false ∧
    specProfileSucceeds (jsTrim c2Input) c2Oracle c2Config = false :=
  ⟨by decide, by decide, by decide⟩

/-- Claim C2 (amended).  A profile succeeds in the sweep iff decryption
completes without error, the result is non-empty and differs from the
trimmed input, and — when the profile's algorithm string contains CFB or
CTR, or its mode equals CFB or CTR — the result is additionally
readable; OFB profiles get no readability check. -/
theorem c2_amended (t : String) (o : DecryptOracle) (config : Config) :
    sweepLoop t o [config] = some config ↔
      ∃ decrypted, o config t = .ok decrypted ∧ ¬ decrypted = "" ∧ ¬ decrypted = t ∧
        (isCFBMode config = true → isReadable decrypted = true) := by
  cases h : o config t with
  | error e => simp [sweepLoop, h]
  | ok d =>
    simp only [sweepLoop, h]
    constructor
    · intro hl
      by_cases h1 : (¬ d = "") ∧ (¬ d = t)
      · by_cases h2 : isCFBMode config = true
        · by_cases h3 : isReadable d = true
          · exact ⟨d, rfl, h1.1, h1.2, fun _ => h3⟩
          · rw [if_pos h1, if_pos h2, if_neg h3] at hl
            simp [sweepLoop] at hl
        · exact ⟨d, rfl, h1.1, h1.2, fun hc => absurd hc h2⟩
      · rw [if_neg h1] at hl
        simp [sweepLoop] at hl
    · rintro ⟨d', hd', hne, hnt, himp⟩
      obtain rfl : d = d' := by injection hd'
      rw [if_pos ⟨hne, hnt⟩]
      by_cases h2 : isCFBMode config = true
      · rw [if_pos h2, if_pos (himp h2)]
      · rw [if_neg h2]

/-! ### C10: the final byte-to-text step of chain decoding -/

/-- A decode chain consisting only of parsing steps (HEX, BASE64,
BASE64_URLSAFE) never raises: no loop step can fail, and the final
byte-to-text step falls back to base64 instead of raising. -/
theorem decodeSteps_parse_ok (enc : List String)
    (h : ∀ e ∈ enc, jsToUpper e = "HEX" ∨ jsToUpper e = "BASE64" ∨
      jsToUpper e = "BASE64_URLSAFE") (v : JSVal) :
    ∃ v', EncodingUtils.decodeSteps v enc = .ok v' := by
  induction enc generalizing v with
  | nil => exact ⟨v, rfl⟩
  | cons e rest ih =>
    have hstep : ∃ v1, EncodingUtils.decodeStep v e = .ok v1 := by
      rcases h e (by simp) with h1 | h1 | h1 <;>
        (simp only [EncodingUtils.decodeStep, h1]; cases v <;> exact ⟨_, rfl⟩)
    obtain ⟨v1, hv1⟩ := hstep
    obtain ⟨v', hv'⟩ := ih (fun e he => h e (by simp [he])) v1
    refine ⟨v', ?_⟩
    rw [EncodingUtils.decodeSteps, hv1]
    exact hv'

/-- Claim C10 (confirmed).  At the final byte-to-text step
`EncodingUtils.decode` never raises: a chain of parsing steps always
returns `ok` regardless of whether the accumulated bytes are valid
UTF-8; and the fallback makes genuine plaintext indistinguishable from
invalid bytes — decoding the base64 of the single invalid byte 0xFF and
decoding the base64 of the genuine text "/w==" both return `ok "/w=="`. -/
theorem c10_decode_final_fallback :
    (∀ (s : String) (enc : List String),
      (∀ e ∈ enc, jsToUpper e = "HEX" ∨ jsToUpper e = "BASE64" ∨
        jsToUpper e = "BASE64_URLSAFE") →
      (EncodingUtils.decode s enc).isOk = true) ∧
    b64Parse "/w==" = [255] ∧
    utf8DecodeStrict [255] = none ∧
    EncodingUtils.decode "/w==" ["BASE64"] = .ok "/w==" ∧
    b64Parse "L3c9PQ==" = utf8Encode "/w==" ∧
    EncodingUtils.decode "L3c9PQ==" ["BASE64"] = .ok "/w==" := by
  refine ⟨fun s enc h => ?_, rfl, rfl, rfl, rfl, rfl⟩
  obtain ⟨v', hv'⟩ := decodeSteps_parse_ok enc h (.str s)
  cases v' <;> (rw [EncodingUtils.decode, hv']; rfl)

theorem c10_decode_final_fallback_witness :
    (EncodingUtils.decode "zz" ["HEX"]).isOk = true :=
  c10_decode_final_fallback.1 "zz" ["HEX"] (by decide)

/-! ### C7 / C4 / C6: the classifier as a whole -/

/-- The sweep loop is the first-match search over the per-profile success
predicate: the first succeeding profile in list order decides. -/
theorem sweepLoop_eq_find (t : String) (o : DecryptOracle) (cfgs : List Config) :
    sweepLoop t o cfgs = cfgs.find? (profileSucceeds t o) := by
  induction cfgs with
  | nil => rfl
  | cons c rest ih =>
    cases h : o c t with
    | error e =>
      have hp : profileSucceeds t o c = false := by simp [profileSucceeds, h]
      simp [sweepLoop, h, List.find?, hp, ih]
    | ok d =>
      by_cases h1 : (¬ d = "") ∧ (¬ d = t)
      · by_cases h2 : isCFBMode c = true
        · by_cases h3 : isReadable d = true
          · have hp : profileSucceeds t o c = true := by
              simp [profileSucceeds, h, h1.1, h1.2, h3]
            simp [sweepLoop, h, h1.1, h1.2, h2, h3, List.find?, hp]
          · have hp : profileSucceeds t o c = false := by
              simp only [profileSucceeds, h, decide_eq_false_iff_not]
              intro hc
              exact h3 (hc.2.2 h2)
            simp [sweepLoop, h, h1.1, h1.2, h2, h3, List.find?, hp, ih]
        · have hp : profileSucceeds t o c = true := by
            simp only [profileSucceeds, h, decide_eq_true_eq]
            exact ⟨h1.1, h1.2, fun hc => absurd hc h2⟩
          simp [sweepLoop, h, h1.1, h1.2, h2, List.find?, hp]
      · have hp : profileSucceeds t o c = false := by
          simp only [profileSucceeds, h, decide_eq_false_iff_not]
          intro hc
          exact h1 ⟨hc.1, hc.2.1⟩
        simp [sweepLoop, h, h1, List.find?, hp, ih]

/-- Claim C7 (confirmed).  The classifier is a pure function of the input
text and the ordered profile list (with the decrypt behaviour fixed):
two runs on the same arguments give the same tag, and within the sweep
the profile iteration order is the tie-break — the result is the *first*
profile in list order whose trial decryption succeeds. -/
theorem c7_deterministic (content : Option String) (cfgs : List Config) (o : DecryptOracle) :
    detectContentType content cfgs o = detectContentType content cfgs o ∧
    sweepLoop (jsTrim (content.getD "")) o cfgs =
      cfgs.find? (profileSucceeds (jsTrim (content.getD "")) o) :=
  ⟨rfl, sweepLoop_eq_find _ _ _⟩

/-- Claim C4 (confirmed).  The classifier is total — every thrown
Codec/Cipher error is absorbed by the `try`/`catch` blocks, modelled by
the `Except`-valued oracle — and always returns exactly one tag from the
closed set {ip, ipv6, cidr, ipv6cidr, cron, timestamp, datetime, url,
domain, encrypted, encode}; `encode` is the final fallback for input
matching no rule. -/
theorem c4_total_closed_tagset (content : Option String) (cfgs : List Config) (o : DecryptOracle) :
    detectContentType content cfgs o ∈
      [Tag.ip, Tag.ipv6, Tag.cidr, Tag.ipv6cidr, Tag.cron, Tag.timestamp, Tag.datetime,
       Tag.url, Tag.domain, Tag.encrypted, Tag.encode] ∧
    detectContentType none cfgs o = Tag.encode := by
  constructor
  · cases detectContentType content cfgs o <;> simp
  · rfl

/-- Trimming a string of JS whitespace gives the empty string. -/
theorem jsTrim_of_all_ws (s : String) (hws : s.data.all isJsWhitespace = true) :
    jsTrim s = "" := by
  have hdrop : s.data.dropWhile isJsWhitespace = [] := by
    rw [List.dropWhile_eq_nil_iff]
    intro x hx
    exact (List.all_eq_true.mp hws) x hx
  apply String.ext
  simp [jsTrim, jsTrimL, hdrop]

/-- The RSA rule never fires on the empty string (the length check
fails). -/
theorem isLikelyRSACipher_empty (configs : List Config) :
    isLikelyRSACipher "" configs = false := by
  unfold isLikelyRSACipher
  dsimp only []
  rw [if_neg (show ¬ ¬ rxTest base64Pattern (jsTrim "") = true by decide),
    if_pos (show jsLength (jsTrim "") < 50 by decide)]

/-- On empty trimmed content no rule before the fallback fires, the
sweep is not reached, and the default tag is returned. -/
theorem detectTrimmed_empty (cfgs : List Config) (o : DecryptOracle) :
    detectTrimmed "" cfgs o = .encode := by
  unfold detectTrimmed
  rw [if_neg (by decide), if_neg (by decide), if_neg (by decide), if_neg (by decide),
    if_neg (by decide), if_neg (by decide), if_neg (by decide),
    if_neg (by simp [isLikelyRSACipher_empty])]
  dsimp only []
  rw [if_neg (show ¬ jsLength "" > 10 by decide)]
  rw [if_neg (by decide), if_neg (by decide), if_neg (by decide), if_neg (by decide),
    if_neg (by decide)]

/-- With zero configured profiles the decrypt oracle is never consulted:
the classification is the same for any two oracles. -/
theorem detectTrimmed_nil_configs (u : String) (o o' : DecryptOracle) :
    detectTrimmed u [] o = detectTrimmed u [] o' := by
  have hnone : ∀ (o'' : DecryptOracle),
      (if jsLength u > 10 then
        (if (List.length ([] : List Config)) > 0 then sweepLoop u o'' [] else none)
      else none) = none := by
    intro o''
    rw [if_neg (show ¬ (List.length ([] : List Config)) > 0 by decide), ite_self]
  unfold detectTrimmed
  rw [hnone o, hnone o']

/-- Claim C6 (confirmed).  An empty or all-whitespace input trims to the
empty string, never reaches the speculative decryption sweep (the result
does not depend on the decrypt behaviour), and gets the non-ciphertext
default tag `encode`; and for every input, an empty profile list skips
the sweep entirely — the classification does not depend on the decrypt
oracle at all. -/
theorem c6_empty_input_and_empty_profiles (s t : String) (cfgs : List Config)
    (o o' : DecryptOracle) (hws : s.data.all isJsWhitespace = true) :
    detectContentType (some s) cfgs o = .encode ∧
    detectContentType (some s) cfgs o' = .encode ∧
    detectContentType (some t) [] o = detectContentType (some t) [] o' := by
  refine ⟨?_, ?_, ?_⟩
  · rw [detectContentType]
    rw [show (some s).getD "" = s from rfl, jsTrim_of_all_ws s hws]
    exact detectTrimmed_empty cfgs o
  · rw [detectContentType]
    rw [show (some s).getD "" = s from rfl, jsTrim_of_all_ws s hws]
    exact detectTrimmed_empty cfgs o'
  · rw [detectContentType, detectContentType]
    exact detectTrimmed_nil_configs _ o o'

theorem c6_empty_input_and_empty_profiles_witness :
    detectContentType (some "  ") [⟨some "AES/CBC/PKCS5Padding", some "AES", some "CBC"⟩]
      (fun _ _ => .ok "x") = .encode ∧
    detectContentType (some "  ") [⟨some "AES/CBC/PKCS5Padding", some "AES", some "CBC"⟩]
      (fun _ _ => .error ()) = .encode ∧
    detectContentType (some "hello world!") [] (fun _ _ => .ok "x") =
      detectContentType (some "hello world!") [] (fun _ _ => .error ()) :=
  c6_empty_input_and_empty_profiles "  " "hello world!"
    [⟨some "AES/CBC/PKCS5Padding", some "AES", some "CBC"⟩]
    (fun _ _ => .ok "x") (fun _ _ => .error ()) (by decide)

end PasteKit
